import Mathlib

/-
Verification of the platform registry service in `src/app.py`
(eclipse-volttron/platform-lookup).

The service keeps its authoritative state in the JSON file `platforms.json`:
every endpoint re-loads the full record list from the file, works on that
local copy, and (for mutations) writes the full list back.  We therefore
embed each endpoint as a function from the current persisted record list to
a result together with the new persisted record list.  A write failure at
`open` time is injected through the `saveOk` flag: that failure leaves the
file as it was, which the flag models by returning the old list.  Because
`_store_platforms` opens the file with mode "w" — truncate in place, with
no write-to-temp-then-rename — a failure after the `open` (disk full)
instead leaves a truncated, unparseable file; the refined model
`register_platform_fs` below distinguishes the two failure points.

Python regular-expression details that matter for the address validator are
modelled faithfully: `re.match` anchors at the start, the final `$` of the
pattern also matches just before one trailing newline, and `\d` (a `str`
pattern without `re.ASCII`) matches any Unicode decimal digit — general
category Nd, tabulated below from Unicode 15.0, the table current CPython
uses.
-/

namespace PlatformLookup

def DEFAULT_GROUP : String := "default"

/-- The pydantic model of `src/app.py` lines 17-49: four string fields,
`group` defaulting to `DEFAULT_GROUP`. -/
structure Platform where
  id : String
  address : String
  public_credentials : String
  group : String
deriving DecidableEq, Repr

/-- Python `v.startswith(pre)` for one candidate string. -/
def startswith (pre v : String) : Bool := pre.data.isPrefixOf v.data

/-- Start code points of the 68 ten-character runs that make up Unicode
15.0 general category Nd (680 decimal-digit characters in total). -/
def ndRangeStarts : List Nat :=
  [0x30, 0x660, 0x6F0, 0x7C0, 0x966, 0x9E6, 0xA66, 0xAE6, 0xB66, 0xBE6,
   0xC66, 0xCE6, 0xD66, 0xDE6, 0xE50, 0xED0, 0xF20, 0x1040, 0x1090, 0x17E0,
   0x1810, 0x1946, 0x19D0, 0x1A80, 0x1A90, 0x1B50, 0x1BB0, 0x1C40, 0x1C50,
   0xA620, 0xA8D0, 0xA900, 0xA9D0, 0xA9F0, 0xAA50, 0xABF0, 0xFF10,
   0x104A0, 0x10D30, 0x11066, 0x110F0, 0x11136, 0x111D0, 0x112F0, 0x11450,
   0x114D0, 0x11650, 0x116C0, 0x11730, 0x118E0, 0x11950, 0x11C50, 0x11D50,
   0x11DA0, 0x11F50, 0x16A60, 0x16AC0, 0x16B50, 0x1D7CE, 0x1D7D8, 0x1D7E2,
   0x1D7EC, 0x1D7F6, 0x1E140, 0x1E2F0, 0x1E4F0, 0x1E950, 0x1FBF0]

/-- Python `\d` on a `str` pattern without `re.ASCII`: any Unicode decimal
digit (category Nd). -/
def isPyDigit (c : Char) : Bool :=
  ndRangeStarts.any (fun s => decide (s ≤ c.toNat) && decide (c.toNat ≤ s + 9))

/-- Split a character list into its maximal leading run of `\d` digits and
the remainder (the deterministic core of matching `\d{1,3}` followed by a
non-digit in the address pattern). -/
def splitDigits : List Char → List Char × List Char
  | [] => ([], [])
  | c :: cs =>
    if isPyDigit c then
      let (d, r) := splitDigits cs
      (c :: d, r)
    else ([], c :: cs)

/-- Match `\d{1,3}\.` at the front of the list, returning the remainder.
Because the character after the digit run must be a dot (a non-digit), the
greedy-with-backtracking semantics of the regular expression collapses to
taking the maximal digit run. -/
def chompOctetDot (l : List Char) : Option (List Char) :=
  let (ds, rest) := splitDigits l
  if 1 ≤ ds.length ∧ ds.length ≤ 3 then
    match rest with
    | c :: r => if c == '.' then some r else none
    | [] => none
  else none

/-- Match `(:\d+)?` against the entire remaining list. -/
def matchTail : List Char → Bool
  | [] => true
  | c :: r =>
    if c == ':' then
      let (ds, rest) := splitDigits r
      decide (1 ≤ ds.length) && rest.isEmpty
    else false

/-- Match `\d{1,3}(:\d+)?` against the entire remaining list. -/
def matchLastOctet (l : List Char) : Bool :=
  let (ds, rest) := splitDigits l
  decide (1 ≤ ds.length ∧ ds.length ≤ 3) && matchTail rest

/-- Full match of `\d{1,3}\.\d{1,3}\.\d{1,3}\.\d{1,3}(:\d+)?` against the
whole list. -/
def matchQuadCore (l : List Char) : Bool :=
  match chompOctetDot l with
  | none => false
  | some r1 =>
    match chompOctetDot r1 with
    | none => false
    | some r2 =>
      match chompOctetDot r2 with
      | none => false
      | some r3 => matchLastOctet r3

/-- Python `re.match(r'^\d{1,3}\.\d{1,3}\.\d{1,3}\.\d{1,3}(:\d+)?$', v)`:
the anchor `$` matches at the end of the string or just before a newline at
the end of the string. -/
def reMatchAnchored (l : List Char) : Bool :=
  matchQuadCore l ||
    (match l.reverse with
     | c :: r => c == '\n' && matchQuadCore r.reverse
     | [] => false)

/-- The `address_must_be_valid` field validator (lines 50-60). -/
def validAddress (v : String) : Bool :=
  (startswith "http://" v || startswith "https://" v ||
      startswith "tcp://" v || startswith "ipc://" v) ||
    reMatchAnchored v.data

/-- The `credential_must_be_valid` field validator (lines 62-68). -/
def validCredential (v : String) : Bool := decide (16 ≤ v.length)

/-- Errors surfaced to the caller: a pydantic field-validation failure, an
`HTTPException` with its status code and detail text, an OS error from the
file write in `_store_platforms`, or the JSONDecodeError that
`_load_platforms` lets propagate when the file exists but does not parse
(only `FileNotFoundError` is caught there). -/
inductive ApiError where
  | validation (msg : String)
  | http (status : Nat) (detail : String)
  | ioFailure
  | corruptStore
deriving DecidableEq, Repr

/-- Pydantic construction of a `Platform` from raw request fields: runs the
two field validators.  There is no validator attached to `id`, so any
string is accepted there. -/
def mkPlatform (id address public_credentials : String) (group : Option String) :
    Except ApiError Platform :=
  if validAddress address = false then
    Except.error (ApiError.validation
      "Address must be a valid URL, IP address, or protocol URI")
  else if validCredential public_credentials = false then
    Except.error (ApiError.validation
      "Public credential must be at least 16 characters long")
  else
    Except.ok
      { id := id, address := address, public_credentials := public_credentials,
        group := group.getD DEFAULT_GROUP }

/-- The exact-triple comparison of line 128. -/
def exactMatch (c p : Platform) : Bool :=
  c.id == p.id && c.address == p.address && c.public_credentials == p.public_credentials

def idExistsMsg (v : String) : String :=
  "Platform with ID '" ++ v ++ "' already exists"

def addrExistsMsg (v : String) : String :=
  "Platform with address '" ++ v ++ "' already exists"

def credExistsMsg (v : String) : String :=
  "Platform with public credential '" ++ v ++ "' already exists"

def notFoundMsg (v : String) : String :=
  "Platform with ID '" ++ v ++ "' not found"

def deletedMsg (v : String) : String :=
  "Platform '" ++ v ++ "' deleted successfully"

/-- The body of `register_platform` (lines 123-145) as a pure decision on
the loaded snapshot: the response, and the list that `_store_platforms`
would write (`none` when no write happens on that path). -/
def reg_decide (c : Platform) (platforms : List Platform) :
    Except ApiError Platform × Option (List Platform) :=
  if platforms.any (fun p => exactMatch c p) then
    (Except.ok c, none)
  else if platforms.any (fun p => p.id == c.id) then
    (Except.error (ApiError.http 400 (idExistsMsg c.id)), none)
  else if platforms.any (fun p => p.address == c.address) then
    (Except.error (ApiError.http 400 (addrExistsMsg c.address)), none)
  else if platforms.any (fun p => p.public_credentials == c.public_credentials) then
    (Except.error (ApiError.http 400 (credExistsMsg c.public_credentials)), none)
  else
    (Except.ok c, some (platforms ++ [c]))

/-- `register_platform` over the persisted state.  `saveOk = false` injects
a failure of the file write at `open` time (permission denied, path
unavailable): the exception propagates and the file is left unchanged.  A
failure after the truncating `open` is modelled below by
`register_platform_fs`, since it does not leave the old snapshot behind. -/
def register_platform (saveOk : Bool) (c : Platform) (platforms : List Platform) :
    Except ApiError Platform × List Platform :=
  match reg_decide c platforms with
  | (r, none) => (r, platforms)
  | (r, some w) =>
    if saveOk then (r, w) else (Except.error ApiError.ioFailure, platforms)

/-- `read_platform` (lines 147-157): first record with the given id, else 404. -/
def read_platform (platform_id : String) (platforms : List Platform) :
    Except ApiError Platform :=
  match platforms.find? (fun p => p.id == platform_id) with
  | some p => Except.ok p
  | none => Except.error (ApiError.http 404 (notFoundMsg platform_id))

/-- The loop of `update_platform` (lines 168-178).  `none`: the loop fell
through (404).  `some none`: the first record with the id was found but the
replacement carries a different id (400).  `some (some l)`: in-place
replacement done, `l` is the list handed to `_store_platforms`. -/
def upd_go (platform_id : String) (u : Platform) : List Platform → Option (Option (List Platform))
  | [] => none
  | p :: ps =>
    if p.id == platform_id then
      if u.id != platform_id then some none
      else some (some (u :: ps))
    else
      (upd_go platform_id u ps).map (fun r => r.map (fun l => p :: l))

/-- `update_platform` (lines 159-178) over the persisted state. -/
def update_platform (saveOk : Bool) (platform_id : String) (u : Platform)
    (platforms : List Platform) : Except ApiError Platform × List Platform :=
  match upd_go platform_id u platforms with
  | none => (Except.error (ApiError.http 404 (notFoundMsg platform_id)), platforms)
  | some none => (Except.error (ApiError.http 400 "Cannot change platform ID"), platforms)
  | some (some l) =>
    if saveOk then (Except.ok u, l) else (Except.error ApiError.ioFailure, platforms)

/-- `delete_platform` (lines 180-196) over the persisted state. -/
def delete_platform (saveOk : Bool) (platform_id : String) (platforms : List Platform) :
    Except ApiError String × List Platform :=
  let remaining := platforms.filter (fun p => p.id != platform_id)
  if remaining.length == platforms.length then
    (Except.error (ApiError.http 404 (notFoundMsg platform_id)), platforms)
  else if saveOk then (Except.ok (deletedMsg platform_id), remaining)
  else (Except.error ApiError.ioFailure, platforms)

/-- `list_platforms` (lines 198-205): returns the loaded list as is. -/
def list_platforms (platforms : List Platform) : List Platform := platforms

/- Refined persistence model.  `_store_platforms` (lines 89-95) writes with
`open(platform_file, "w")` followed by `json.dump`: the `open` truncates
the file in place and the JSON is streamed into it, with no temporary file
and no rename.  The persisted file is therefore either a parseable
snapshot or, after a failure mid-write, a truncated fragment. -/

/-- The on-disk state of `platforms.json`: a parseable snapshot of records
(the absent file reads as the empty snapshot), or a truncated, unparseable
file left behind by a write failure after the truncating `open`. -/
inductive FileState where
  | snapshot (records : List Platform)
  | corrupt
deriving Repr

/-- The outcome of one `_store_platforms` attempt: the write completes; the
`open` itself fails (permission denied, path unavailable) leaving the file
untouched; or the write fails after the `open` has truncated the file
(disk full), leaving a fragment that `json.load` cannot parse. -/
inductive SaveOutcome where
  | completed
  | openFailed
  | midWriteFailed
deriving DecidableEq, Repr

/-- `_load_platforms` (lines 97-104) over the file state: a snapshot loads;
only `FileNotFoundError` is caught, so a truncated file raises
JSONDecodeError to the caller. -/
def load_platforms : FileState → Except ApiError (List Platform)
  | FileState.snapshot l => Except.ok l
  | FileState.corrupt => Except.error ApiError.corruptStore

/-- `_store_platforms` (lines 89-95) over the file state. -/
def store_platforms (w : List Platform) (out : SaveOutcome) (old : FileState) :
    Except ApiError Unit × FileState :=
  match out with
  | SaveOutcome.completed => (Except.ok (), FileState.snapshot w)
  | SaveOutcome.openFailed => (Except.error ApiError.ioFailure, old)
  | SaveOutcome.midWriteFailed => (Except.error ApiError.ioFailure, FileState.corrupt)

/-- `register_platform` over the file state, with the point of write
failure explicit. -/
def register_platform_fs (out : SaveOutcome) (c : Platform) (fs : FileState) :
    Except ApiError Platform × FileState :=
  match load_platforms fs with
  | Except.error e => (Except.error e, fs)
  | Except.ok platforms =>
    match reg_decide c platforms with
    | (r, none) => (r, fs)
    | (r, some w) =>
      match store_platforms w out fs with
      | (Except.ok _, fs2) => (r, fs2)
      | (Except.error e, fs2) => (Except.error e, fs2)

/-- `list_platforms` over the file state (its `Depends(get_platforms)`
reloads the file, so a corrupt file makes listing fail too). -/
def list_platforms_fs (fs : FileState) : Except ApiError (List Platform) :=
  load_platforms fs

/-- One register call with persistence available, as a state transformer
(used to fold whole call sequences). -/
def runRegister (s : List Platform) (c : Platform) : List Platform :=
  (register_platform true c s).2

/-- No two live records share the value of the field `f`. -/
def uniqueBy (f : Platform → String) (l : List Platform) : Prop :=
  l.Pairwise (fun p q => f p ≠ f q)

/-- Invariants I1-I3: `id`, `address` and `public_credentials` are each
unique across all live records. -/
def RegInvariant (l : List Platform) : Prop :=
  uniqueBy (fun p => p.id) l ∧ uniqueBy (fun p => p.address) l ∧
    uniqueBy (fun p => p.public_credentials) l

/- Interleaving model for the two concurrent register calls of claim C9.
The lock of `src/app.py` is acquired separately inside `get_platforms`
(around the file read) and inside `_store_platforms` (around the file
write), so a register call is two atomic events against the shared file:
`load`, which snapshots the file into the call's local list, and `finish`,
which runs the checks on that snapshot and performs the write, if any. -/

inductive Tid where
  | A
  | B
deriving DecidableEq, Repr

structure ConcState where
  file : List Platform
  localA : Option (List Platform)
  localB : Option (List Platform)
  resA : Option (Except ApiError Platform)
  resB : Option (Except ApiError Platform)
deriving Repr

inductive Ev where
  | load (t : Tid)
  | finish (t : Tid)
deriving DecidableEq, Repr

def initConc (file : List Platform) : ConcState :=
  { file := file, localA := none, localB := none, resA := none, resB := none }

def stepEv (cA cB : Platform) (st : ConcState) : Ev → ConcState
  | Ev.load Tid.A => { st with localA := some st.file }
  | Ev.load Tid.B => { st with localB := some st.file }
  | Ev.finish Tid.A =>
    match st.localA with
    | none => st
    | some l =>
      let (r, w) := reg_decide cA l
      { st with resA := some r, file := w.getD st.file }
  | Ev.finish Tid.B =>
    match st.localB with
    | none => st
    | some l =>
      let (r, w) := reg_decide cB l
      { st with resB := some r, file := w.getD st.file }

def runEvents (cA cB : Platform) (file : List Platform) (evs : List Ev) : ConcState :=
  evs.foldl (stepEv cA cB) (initConc file)

/- Spec-side definitions, used only to compare the code's validator with
the words of the specification. -/

/-- Numeric value of a digit string (spec-side). -/
def digitsVal (l : List Char) : Nat :=
  l.foldl (fun a c => 10 * a + (c.toNat - 48)) 0

/-- Split a character list on a separator character (spec-side helper). -/
def splitOnChar (sep : Char) : List Char → List (List Char)
  | [] => [[]]
  | c :: cs =>
    if c == sep then [] :: splitOnChar sep cs
    else
      match splitOnChar sep cs with
      | [] => [[c]]
      | t :: ts => (c :: t) :: ts

/-- Spec-side: one octet of an IPv4 literal, a digit run whose value is at
most 255. -/
def specOctet (l : List Char) : Bool :=
  !l.isEmpty && l.all Char.isDigit && decide (l.length ≤ 3) &&
    decide (digitsVal l ≤ 255)

/-- Spec-side: an IPv4 literal, four octets separated by dots. -/
def specIPv4 (l : List Char) : Bool :=
  match splitOnChar '.' l with
  | [a, b, c, d] => specOctet a && specOctet b && specOctet c && specOctet d
  | _ => false

/-- Spec-side: a port suffix, one or more digits. -/
def specPort (l : List Char) : Bool := !l.isEmpty && l.all Char.isDigit

/-- Spec-side: an IPv4 literal optionally suffixed with a colon and a port. -/
def specIPv4OptPort (l : List Char) : Bool :=
  match splitOnChar ':' l with
  | [q] => specIPv4 q
  | [q, p] => specIPv4 q && specPort p
  | _ => false

/-- Modelled from the spec: "must syntactically be one of: an IPv4 literal
optionally suffixed with `:port`, or a URI beginning with `http://`,
`https://`, `tcp://`, or `ipc://`". -/
def specValidAddress (s : String) : Bool :=
  (startswith "http://" s || startswith "https://" s ||
      startswith "tcp://" s || startswith "ipc://" s) ||
    specIPv4OptPort s.data

/-- Declarative shape of what the code's regular expression accepts: a run
of one to three `\d` digits (any Unicode decimal digit). -/
def DigitRun (l : List Char) : Prop :=
  l ≠ [] ∧ l.length ≤ 3 ∧ ∀ c ∈ l, isPyDigit c = true

/-- Declarative shape of the optional `:port` suffix accepted by the code:
empty, or a colon followed by one or more `\d` digits. -/
def PortTail (l : List Char) : Prop :=
  l = [] ∨ ∃ p, p ≠ [] ∧ (∀ c ∈ p, isPyDigit c = true) ∧ l = ':' :: p

/-- Declarative shape of a dotted quad as the code's regular expression
accepts it: four dot-separated digit runs of length one to three, followed
by an optional port tail.  Octet values are not range-checked. -/
def LooseQuad (l : List Char) : Prop :=
  ∃ a b c d t, DigitRun a ∧ DigitRun b ∧ DigitRun c ∧ DigitRun d ∧ PortTail t ∧
    l = a ++ '.' :: (b ++ '.' :: (c ++ '.' :: (d ++ t)))

/- Concrete records used by counterexamples and witnesses. -/

def P1 : Platform :=
  { id := "p1", address := "tcp://10.0.0.1:5555",
    public_credentials := "0123456789abcdef", group := "default" }

/-- Same `(id, address, credential)` triple as `P1`, different `group`. -/
def P1g : Platform :=
  { id := "p1", address := "tcp://10.0.0.1:5555",
    public_credentials := "0123456789abcdef", group := "staging" }

/-- Same id as `P1`, different address and credential. -/
def P1a : Platform :=
  { id := "p1", address := "tcp://10.0.0.2:5555",
    public_credentials := "aaaabbbbccccdddd", group := "default" }

/-- Different id, same address as `P1`, different credential. -/
def P2 : Platform :=
  { id := "p2", address := "tcp://10.0.0.1:5555",
    public_credentials := "fedcba9876543210", group := "default" }

/-- Different id and address, same credential as `P1`. -/
def P1c : Platform :=
  { id := "p9", address := "tcp://10.0.0.9:5555",
    public_credentials := "0123456789abcdef", group := "default" }

/-- Fresh record, no field shared with `P1`. -/
def P3 : Platform :=
  { id := "p3", address := "tcp://10.0.0.3:5555",
    public_credentials := "3333333333333333", group := "default" }

/-- A record whose id violates the documented charset (space and bang). -/
def BadIdRecord : Platform :=
  { id := "bad id!", address := "tcp://10.0.0.1:5555",
    public_credentials := "0123456789abcdef", group := "default" }

/- Helper lemmas. -/

theorem uniqueBy_append_singleton (f : Platform → String) (s : List Platform) (c : Platform)
    (hu : uniqueBy f s) (hne : ∀ p ∈ s, f p ≠ f c) : uniqueBy f (s ++ [c]) := by
  rw [uniqueBy, List.pairwise_append]
  refine ⟨hu, List.pairwise_singleton _ _, ?_⟩
  intro a ha b hb
  rw [List.mem_singleton] at hb
  subst hb
  exact hne a ha

/-- On every path, `register_platform` either leaves the persisted list
unchanged or appends the candidate, and it appends only when no stored
record shares the id, the address or the credential. -/
theorem register_platform_state (saveOk : Bool) (c : Platform) (s : List Platform) :
    (register_platform saveOk c s).2 = s ∨
      ((register_platform saveOk c s).2 = s ++ [c] ∧
        s.any (fun p => p.id == c.id) = false ∧
        s.any (fun p => p.address == c.address) = false ∧
        s.any (fun p => p.public_credentials == c.public_credentials) = false) := by
  by_cases h0 : s.any (fun p => exactMatch c p) = true
  · left; simp [register_platform, reg_decide, h0]
  · rw [Bool.not_eq_true] at h0
    by_cases h1 : s.any (fun p => p.id == c.id) = true
    · left; simp [register_platform, reg_decide, h0, h1]
    · rw [Bool.not_eq_true] at h1
      by_cases h2 : s.any (fun p => p.address == c.address) = true
      · left; simp [register_platform, reg_decide, h0, h1, h2]
      · rw [Bool.not_eq_true] at h2
        by_cases h3 : s.any (fun p => p.public_credentials == c.public_credentials) = true
        · left; simp [register_platform, reg_decide, h0, h1, h2, h3]
        · rw [Bool.not_eq_true] at h3
          cases saveOk
          · left; simp [register_platform, reg_decide, h0, h1, h2, h3]
          · right
            exact ⟨by simp [register_platform, reg_decide, h0, h1, h2, h3], h1, h2, h3⟩

theorem register_preserves_invariant (saveOk : Bool) (c : Platform) (s : List Platform)
    (h : RegInvariant s) : RegInvariant (register_platform saveOk c s).2 := by
  rcases register_platform_state saveOk c s with heq | ⟨heq, h1, h2, h3⟩
  · rw [heq]; exact h
  · rw [heq]
    obtain ⟨hi, ha, hc⟩ := h
    rw [List.any_eq_false] at h1 h2 h3
    refine ⟨?_, ?_, ?_⟩
    · exact uniqueBy_append_singleton _ s c hi fun p hp hne =>
        h1 p hp (beq_iff_eq.mpr hne)
    · exact uniqueBy_append_singleton _ s c ha fun p hp hne =>
        h2 p hp (beq_iff_eq.mpr hne)
    · exact uniqueBy_append_singleton _ s c hc fun p hp hne =>
        h3 p hp (beq_iff_eq.mpr hne)

/-- C1: starting from the empty registry, after any sequence of register
calls (each call either completes or is a no-op failure), at most one live
record exists with any given id, any given address, and any given
credential: invariants I1, I2 and I3 hold after every completed register
operation. -/
theorem register_call_sequences_keep_records_unique (cs : List Platform) :
    RegInvariant (cs.foldl runRegister []) := by
  have key : ∀ (l : List Platform) (s : List Platform), RegInvariant s →
      RegInvariant (l.foldl runRegister s) := by
    intro l
    induction l with
    | nil => intro s hs; simpa using hs
    | cons c rest ih =>
      intro s hs
      exact ih _ (register_preserves_invariant true c s hs)
  exact key cs [] ⟨List.Pairwise.nil, List.Pairwise.nil, List.Pairwise.nil⟩

/-- C3: when the candidate is not an exact triple match of any stored
record, register checks id, then address, then credential, in that order,
fails with the 400 conflict response naming the first field that matches an
existing record, and leaves the persisted record set unchanged. -/
theorem register_checks_conflicts_in_order (saveOk : Bool) (c : Platform) (s : List Platform)
    (hex : s.any (fun p => exactMatch c p) = false) :
    (s.any (fun p => p.id == c.id) = true →
        register_platform saveOk c s =
          (Except.error (ApiError.http 400 (idExistsMsg c.id)), s)) ∧
    (s.any (fun p => p.id == c.id) = false →
      s.any (fun p => p.address == c.address) = true →
        register_platform saveOk c s =
          (Except.error (ApiError.http 400 (addrExistsMsg c.address)), s)) ∧
    (s.any (fun p => p.id == c.id) = false →
      s.any (fun p => p.address == c.address) = false →
      s.any (fun p => p.public_credentials == c.public_credentials) = true →
        register_platform saveOk c s =
          (Except.error (ApiError.http 400 (credExistsMsg c.public_credentials)), s)) :=
  ⟨fun h1 => by simp [register_platform, reg_decide, hex, h1],
   fun h1 h2 => by simp [register_platform, reg_decide, hex, h1, h2],
   fun h1 h2 h3 => by simp [register_platform, reg_decide, hex, h1, h2, h3]⟩

theorem register_checks_conflicts_in_order_witness :
    register_platform true P1a [P1] =
      (Except.error (ApiError.http 400 (idExistsMsg P1a.id)), [P1]) ∧
    register_platform true P2 [P1] =
      (Except.error (ApiError.http 400 (addrExistsMsg P2.address)), [P1]) ∧
    register_platform true P1c [P1] =
      (Except.error (ApiError.http 400 (credExistsMsg P1c.public_credentials)), [P1]) :=
  ⟨(register_checks_conflicts_in_order true P1a [P1] (by decide)).1 (by decide),
   (register_checks_conflicts_in_order true P2 [P1] (by decide)).2.1 (by decide) (by decide),
   (register_checks_conflicts_in_order true P1c [P1] (by decide)).2.2 (by decide) (by decide)
     (by decide)⟩

theorem filter_exact_length_one (c : Platform) :
    ∀ s : List Platform, uniqueBy (fun p => p.id) s →
      s.any (fun p => exactMatch c p) = true →
      (s.filter (fun p => exactMatch c p)).length = 1 := by
  intro s
  induction s with
  | nil => intro _ h; simp at h
  | cons p ps ih =>
    intro hu h
    rw [uniqueBy, List.pairwise_cons] at hu
    by_cases hp : exactMatch c p = true
    · rw [List.filter_cons_of_pos hp]
      have hid : c.id = p.id := by
        have := hp
        simp only [exactMatch, Bool.and_eq_true, beq_iff_eq] at this
        exact this.1.1
      have hnone : ps.filter (fun q => exactMatch c q) = [] := by
        rw [List.filter_eq_nil_iff]
        intro q hq hcq
        have hqid : c.id = q.id := by
          simp only [exactMatch, Bool.and_eq_true, beq_iff_eq] at hcq
          exact hcq.1.1
        exact hu.1 q hq (hid ▸ hqid ▸ rfl)
      rw [hnone]
      rfl
    · rw [List.filter_cons_of_neg hp]
      have h' : ps.any (fun q => exactMatch c q) = true := by
        rcases List.any_eq_true.mp h with ⟨x, hx, hxm⟩
        rcases List.mem_cons.mp hx with hxp | hxps
        · exact absurd (hxp ▸ hxm) hp
        · exact List.any_eq_true.mpr ⟨x, hxps, hxm⟩
      exact ih hu.2 h'

/-- C2 counterexample: registering a candidate whose id, address and
credential match the stored record `P1` but whose group differs returns the
candidate itself, not the stored record, so the response is not the
existing record field-for-field. -/
theorem register_idempotent_returns_candidate_not_stored :
    (register_platform true P1g [P1]).1 = Except.ok P1g ∧
      P1g ≠ P1 ∧ P1g.group ≠ P1.group ∧
      (register_platform true P1g [P1]).2 = [P1] :=
  ⟨rfl, by decide, by decide, by decide⟩

/-- C2 (amended): when some stored record matches the candidate on id,
address and credential, register succeeds without touching the record set
and returns the candidate (which agrees with the stored record on those
three fields but may differ from it in group); under invariant I1 exactly
one stored record matches the triple. -/
theorem register_exact_triple_is_noop (saveOk : Bool) (c : Platform) (s : List Platform)
    (h : s.any (fun p => exactMatch c p) = true) :
    (register_platform saveOk c s).1 = Except.ok c ∧
      (register_platform saveOk c s).2 = s ∧
      (uniqueBy (fun p => p.id) s →
        (s.filter (fun p => exactMatch c p)).length = 1) := by
  refine ⟨by simp [register_platform, reg_decide, h], by simp [register_platform, reg_decide, h], ?_⟩
  intro hu
  exact filter_exact_length_one c s hu h

theorem register_exact_triple_is_noop_witness :
    (register_platform true P1g [P1]).1 = Except.ok P1g ∧
      (register_platform true P1g [P1]).2 = [P1] ∧
      ([P1].filter (fun p => exactMatch P1g p)).length = 1 := by
  have h := register_exact_triple_is_noop true P1g [P1] (by decide)
  exact ⟨h.1, h.2.1, h.2.2 (List.pairwise_singleton _ _)⟩

/-- C4: the code has no validator on `id`, so a candidate whose id is not
restricted to alphanumeric characters, underscores and hyphens passes model
construction, and register stores it instead of failing with a validation
error. -/
theorem register_accepts_invalid_id :
    mkPlatform "bad id!" "tcp://10.0.0.1:5555" "0123456789abcdef" none =
      Except.ok BadIdRecord ∧
    register_platform true BadIdRecord [] = (Except.ok BadIdRecord, [BadIdRecord]) ∧
    "bad id!".data.all (fun ch => ch.isAlphanum || ch == '_' || ch == '-') = false :=
  ⟨rfl, rfl, by decide⟩

/-- The refined file-state model agrees with the list-level model whenever
the write completes or fails at `open` time. -/
theorem register_platform_fs_snapshot (c : Platform) (s : List Platform) :
    register_platform_fs SaveOutcome.completed c (FileState.snapshot s) =
      ((register_platform true c s).1,
        FileState.snapshot (register_platform true c s).2) ∧
    register_platform_fs SaveOutcome.openFailed c (FileState.snapshot s) =
      ((register_platform false c s).1,
        FileState.snapshot (register_platform false c s).2) := by
  constructor <;>
  · simp only [register_platform_fs, load_platforms, register_platform]
    cases hd : reg_decide c s with
    | mk r w =>
      cases w with
      | none => simp [store_platforms]
      | some l => simp [store_platforms]

/-- C8: the rollback guarantee holds only for a write failure at `open`
time; `_store_platforms` opens the store with truncating mode "w" and no
temp-file rename, so a write failure after the `open` (disk full) leaves
the persisted file unparseable — the operation fails, but a subsequent
list does not return the pre-call record set: it fails to load, so the
observable record set is not identical to its value before the failed
register. -/
theorem register_midwrite_failure_corrupts_store :
    register_platform_fs SaveOutcome.midWriteFailed P3 (FileState.snapshot [P1]) =
      (Except.error ApiError.ioFailure, FileState.corrupt) ∧
    list_platforms_fs
        (register_platform_fs SaveOutcome.midWriteFailed P3 (FileState.snapshot [P1])).2 =
      Except.error ApiError.corruptStore ∧
    list_platforms_fs (FileState.snapshot [P1]) = Except.ok [P1] ∧
    register_platform_fs SaveOutcome.openFailed P3 (FileState.snapshot [P1]) =
      (Except.error ApiError.ioFailure, FileState.snapshot [P1]) :=
  ⟨rfl, rfl, rfl, rfl⟩

theorem upd_go_eq_none (pid : String) (u : Platform) :
    ∀ s : List Platform, s.any (fun p => p.id == pid) = false → upd_go pid u s = none := by
  intro s
  induction s with
  | nil => intro _; rfl
  | cons p ps ih =>
    intro h
    simp only [List.any_cons, Bool.or_eq_false_iff] at h
    simp [upd_go, h.1, ih h.2]

theorem upd_go_id_change (pid : String) (u : Platform) (hne : u.id ≠ pid) :
    ∀ s : List Platform, s.any (fun p => p.id == pid) = true → upd_go pid u s = some none := by
  intro s
  induction s with
  | nil => intro h; simp at h
  | cons p ps ih =>
    intro h
    by_cases hp : (p.id == pid) = true
    · have hb : (u.id != pid) = true := bne_iff_ne.mpr hne
      simp [upd_go, hp, hb]
    · rw [Bool.not_eq_true] at hp
      have h' : ps.any (fun q => q.id == pid) = true := by
        rw [List.any_cons, hp] at h
        simpa using h
      simp [upd_go, hp, ih h']

theorem upd_go_found (pid : String) (u : Platform) (hid : u.id = pid) :
    ∀ s : List Platform, s.any (fun p => p.id == pid) = true →
      upd_go pid u s = some (some (s.set (s.findIdx (fun p => p.id == pid)) u)) := by
  intro s
  induction s with
  | nil => intro h; simp at h
  | cons p ps ih =>
    intro h
    by_cases hp : (p.id == pid) = true
    · have hb : (u.id != pid) = false := by simp [bne, hid]
      simp [upd_go, hp, hb, List.findIdx_cons, List.set_cons_zero]
    · rw [Bool.not_eq_true] at hp
      have h' : ps.any (fun q => q.id == pid) = true := by
        rw [List.any_cons, hp] at h
        simpa using h
      simp [upd_go, hp, ih h', List.findIdx_cons, List.set_cons_succ]

/-- C6: update on a state holding a record with the given id, called with a
replacement whose id differs, fails with the 400 response "Cannot change
platform ID" and leaves the persisted record set unchanged; update on a
state with no record of the given id fails with the 404 response. -/
theorem update_rejects_id_change_and_missing_id (saveOk : Bool) (pid : String)
    (u : Platform) (s : List Platform) :
    (s.any (fun p => p.id == pid) = true → u.id ≠ pid →
      update_platform saveOk pid u s =
        (Except.error (ApiError.http 400 "Cannot change platform ID"), s)) ∧
    (s.any (fun p => p.id == pid) = false →
      update_platform saveOk pid u s =
        (Except.error (ApiError.http 404 (notFoundMsg pid)), s)) :=
  ⟨fun hmem hne => by simp [update_platform, upd_go_id_change pid u hne s hmem],
   fun hmem => by simp [update_platform, upd_go_eq_none pid u s hmem]⟩

theorem update_rejects_id_change_and_missing_id_witness :
    update_platform true "p1" P2 [P1] =
      (Except.error (ApiError.http 400 "Cannot change platform ID"), [P1]) ∧
    update_platform true "zz" P2 [P1] =
      (Except.error (ApiError.http 404 (notFoundMsg "zz")), [P1]) :=
  ⟨(update_rejects_id_change_and_missing_id true "p1" P2 [P1]).1 (by decide) (by decide),
   (update_rejects_id_change_and_missing_id true "zz" P2 [P1]).2 (by decide)⟩

/-- C7: after a successful delete of an id, reading that id fails with the
404 response and the listing holds no record with that id; deleting an id
with no record fails with the 404 response and changes nothing. -/
theorem delete_then_get_not_found (pid : String) (s : List Platform) :
    (s.any (fun p => p.id == pid) = true →
      (delete_platform true pid s).1 = Except.ok (deletedMsg pid) ∧
      read_platform pid (delete_platform true pid s).2 =
        Except.error (ApiError.http 404 (notFoundMsg pid)) ∧
      ∀ p ∈ list_platforms (delete_platform true pid s).2, p.id ≠ pid) ∧
    (s.any (fun p => p.id == pid) = false →
      delete_platform true pid s = (Except.error (ApiError.http 404 (notFoundMsg pid)), s)) := by
  constructor
  · intro hmem
    rcases List.any_eq_true.mp hmem with ⟨x, hx, hxm⟩
    have hlt : (s.filter (fun p => p.id != pid)).length < s.length := by
      refine List.length_filter_lt_length_iff_exists.mpr ⟨x, hx, ?_⟩
      simp [bne, hxm]
    have hbeq : ((s.filter (fun p => p.id != pid)).length == s.length) = false :=
      beq_eq_false_iff_ne.mpr (Nat.ne_of_lt hlt)
    have hdel : delete_platform true pid s =
        (Except.ok (deletedMsg pid), s.filter (fun p => p.id != pid)) := by
      simp [delete_platform, hbeq]
    refine ⟨by rw [hdel], ?_, ?_⟩
    · rw [hdel]
      have hnone : (s.filter (fun p => p.id != pid)).find? (fun p => p.id == pid) = none := by
        rw [List.find?_eq_none]
        intro q hq
        have hq2 := (List.mem_filter.mp hq).2
        rw [bne_iff_ne] at hq2
        simp [hq2]
      simp [read_platform, hnone]
    · rw [hdel]
      intro p hp
      have hp2 := (List.mem_filter.mp hp).2
      rwa [bne_iff_ne] at hp2
  · intro hmem
    rw [List.any_eq_false] at hmem
    have hself : s.filter (fun p => p.id != pid) = s := by
      rw [List.filter_eq_self]
      intro a ha
      have hfalse : (a.id == pid) = false := by simpa using hmem a ha
      simp [bne, hfalse]
    simp [delete_platform, hself]

theorem delete_then_get_not_found_witness :
    ((delete_platform true "p1" [P1, P3]).1 = Except.ok (deletedMsg "p1") ∧
      read_platform "p1" (delete_platform true "p1" [P1, P3]).2 =
        Except.error (ApiError.http 404 (notFoundMsg "p1")) ∧
      ∀ p ∈ list_platforms (delete_platform true "p1" [P1, P3]).2, p.id ≠ "p1") ∧
    delete_platform true "zz" [P1] =
      (Except.error (ApiError.http 404 (notFoundMsg "zz")), [P1]) :=
  ⟨(delete_then_get_not_found "p1" [P1, P3]).1 (by decide),
   (delete_then_get_not_found "zz" [P1]).2 (by decide)⟩

/-- C9: the lock of the code guards the file read and the file write
separately, not the whole read-check-write sequence, so two concurrent
register calls whose candidates share an address can interleave as
load-load-finish-finish and both succeed; the first write is then lost. -/
theorem concurrent_registers_with_same_address_both_succeed :
    P1.address = P2.address ∧ P1.id ≠ P2.id ∧
    (runEvents P1 P2 [] [Ev.load Tid.A, Ev.load Tid.B, Ev.finish Tid.A, Ev.finish Tid.B]).resA =
      some (Except.ok P1) ∧
    (runEvents P1 P2 [] [Ev.load Tid.A, Ev.load Tid.B, Ev.finish Tid.A, Ev.finish Tid.B]).resB =
      some (Except.ok P2) ∧
    (runEvents P1 P2 [] [Ev.load Tid.A, Ev.load Tid.B, Ev.finish Tid.A, Ev.finish Tid.B]).file =
      [P2] :=
  ⟨rfl, by decide, rfl, rfl, rfl⟩

/-- C10: a successful update replaces exactly the first record carrying the
given id, in place; the length of the record list and every other position
are unchanged. -/
theorem update_replaces_only_matched_position (pid : String) (u : Platform)
    (s : List Platform) (hmem : s.any (fun p => p.id == pid) = true)
    (hid : u.id = pid) :
    update_platform true pid u s =
      (Except.ok u, s.set (s.findIdx (fun p => p.id == pid)) u) ∧
    (update_platform true pid u s).2.length = s.length ∧
    ∀ j, j ≠ s.findIdx (fun p => p.id == pid) →
      (update_platform true pid u s).2[j]? = s[j]? := by
  have hgo := upd_go_found pid u hid s hmem
  have heq : update_platform true pid u s =
      (Except.ok u, s.set (s.findIdx (fun p => p.id == pid)) u) := by
    simp [update_platform, hgo]
  refine ⟨heq, ?_, ?_⟩
  · rw [heq]
    exact List.length_set s _ u
  · intro j hj
    rw [heq]
    exact List.getElem?_set_ne (Ne.symm hj)

theorem update_replaces_only_matched_position_witness :
    update_platform true "p1" P1a [P3, P1] = (Except.ok P1a, [P3, P1a]) :=
  (update_replaces_only_matched_position "p1" P1a [P3, P1] (by decide) rfl).1

theorem splitDigits_spec (l : List Char) :
    splitDigits l = (l.takeWhile (fun c => isPyDigit c), l.dropWhile (fun c => isPyDigit c)) := by
  induction l with
  | nil => rfl
  | cons c cs ih =>
    by_cases h : isPyDigit c = true
    · simp [splitDigits, h, ih, List.takeWhile_cons, List.dropWhile_cons]
    · rw [Bool.not_eq_true] at h
      simp [splitDigits, h, List.takeWhile_cons, List.dropWhile_cons]

theorem splitDigits_digits_append (r : List Char)
    (hr : ∀ c r2, r = c :: r2 → isPyDigit c = false) :
    ∀ ds : List Char, (∀ c ∈ ds, isPyDigit c = true) → splitDigits (ds ++ r) = (ds, r) := by
  intro ds
  induction ds with
  | nil =>
    intro _
    cases r with
    | nil => rfl
    | cons c r2 => simp [splitDigits, hr c r2 rfl]
  | cons d ds2 ih =>
    intro hds
    have hd : isPyDigit d = true := hds d (by simp)
    simp [splitDigits, hd, ih (fun c hc => hds c (by simp [hc]))]

theorem chompOctetDot_sound {l r : List Char} (h : chompOctetDot l = some r) :
    ∃ a, DigitRun a ∧ l = a ++ '.' :: r := by
  simp only [chompOctetDot, splitDigits_spec] at h
  by_cases hlen : 1 ≤ (l.takeWhile (fun c => isPyDigit c)).length ∧
      (l.takeWhile (fun c => isPyDigit c)).length ≤ 3
  · rw [if_pos hlen] at h
    cases hdw : l.dropWhile (fun c => isPyDigit c) with
    | nil =>
      simp only [hdw] at h
      exact Option.noConfusion h
    | cons c0 r0 =>
      simp only [hdw] at h
      by_cases hdot : (c0 == '.') = true
      · rw [if_pos hdot] at h
        injection h with h2
        subst h2
        refine ⟨l.takeWhile (fun c => isPyDigit c),
          ⟨?_, hlen.2, fun c hc => List.mem_takeWhile_imp hc⟩, ?_⟩
        · intro hnil
          rw [hnil] at hlen
          exact absurd hlen.1 (by simp)
        · conv_lhs => rw [← List.takeWhile_append_dropWhile (fun c => isPyDigit c) l]
          rw [hdw, beq_iff_eq.mp hdot]
      · rw [if_neg hdot] at h
        exact Option.noConfusion h
  · rw [if_neg hlen] at h
    exact Option.noConfusion h

theorem chompOctetDot_complete (a : List Char) (r : List Char) (ha : DigitRun a) :
    chompOctetDot (a ++ '.' :: r) = some r := by
  obtain ⟨hne, hlen, hdig⟩ := ha
  have hsp : splitDigits (a ++ '.' :: r) = (a, '.' :: r) :=
    splitDigits_digits_append ('.' :: r)
      (fun c r2 hcr => by injection hcr with h1 _; subst h1; decide) a hdig
  simp only [chompOctetDot, hsp]
  rw [if_pos ⟨List.length_pos.mpr hne, hlen⟩]
  simp

theorem matchTail_iff (l : List Char) : matchTail l = true ↔ PortTail l := by
  constructor
  · intro h
    cases l with
    | nil => exact Or.inl rfl
    | cons c r =>
      right
      simp only [matchTail, splitDigits_spec] at h
      by_cases hc : (c == ':') = true
      · rw [if_pos hc] at h
        rw [Bool.and_eq_true, decide_eq_true_eq, List.isEmpty_iff] at h
        obtain ⟨h1, h2⟩ := h
        have hr : r = r.takeWhile (fun c => isPyDigit c) := by
          conv_lhs => rw [← List.takeWhile_append_dropWhile (fun c => isPyDigit c) r]
          rw [h2, List.append_nil]
        refine ⟨r, ?_, ?_, by rw [beq_iff_eq.mp hc]⟩
        · intro hnil
          rw [hnil] at h1
          simp at h1
        · intro c2 hc2
          rw [hr] at hc2
          exact List.mem_takeWhile_imp hc2
      · rw [Bool.not_eq_true] at hc
        rw [hc] at h
        cases h
  · intro h
    rcases h with rfl | ⟨p, hne, hdig, rfl⟩
    · rfl
    · have hsp : splitDigits p = (p, []) := by
        have := splitDigits_digits_append [] (fun c r2 hcr => by cases hcr) p hdig
        simpa using this
      simp only [matchTail, hsp]
      rw [if_pos (by decide)]
      rw [Bool.and_eq_true, decide_eq_true_eq]
      exact ⟨List.length_pos.mpr hne, by simp⟩

theorem matchLastOctet_iff (l : List Char) :
    matchLastOctet l = true ↔ ∃ d t, DigitRun d ∧ PortTail t ∧ l = d ++ t := by
  constructor
  · intro h
    simp only [matchLastOctet, splitDigits_spec] at h
    rw [Bool.and_eq_true, decide_eq_true_eq] at h
    obtain ⟨hlen, htail⟩ := h
    refine ⟨l.takeWhile (fun c => isPyDigit c), l.dropWhile (fun c => isPyDigit c),
      ⟨?_, hlen.2, fun c hc => List.mem_takeWhile_imp hc⟩,
      (matchTail_iff _).mp htail,
      (List.takeWhile_append_dropWhile _ _).symm⟩
    intro hnil
    rw [hnil] at hlen
    exact absurd hlen.1 (by simp)
  · rintro ⟨d, t, ⟨hne, hlen, hdig⟩, ht, rfl⟩
    have hsp : splitDigits (d ++ t) = (d, t) := by
      refine splitDigits_digits_append t ?_ d hdig
      intro c r2 hcr
      rcases ht with rfl | ⟨p, hpne, hpdig, rfl⟩
      · cases hcr
      · injection hcr with h1 _
        subst h1
        decide
    simp only [matchLastOctet, hsp]
    rw [Bool.and_eq_true, decide_eq_true_eq]
    exact ⟨⟨List.length_pos.mpr hne, hlen⟩, (matchTail_iff t).mpr ht⟩

theorem matchQuadCore_iff (l : List Char) : matchQuadCore l = true ↔ LooseQuad l := by
  constructor
  · intro h
    rw [matchQuadCore] at h
    cases h1 : chompOctetDot l with
    | none =>
      simp only [h1] at h
      exact Bool.noConfusion h
    | some r1 =>
      simp only [h1] at h
      cases h2 : chompOctetDot r1 with
      | none =>
        simp only [h2] at h
        exact Bool.noConfusion h
      | some r2 =>
        simp only [h2] at h
        cases h3 : chompOctetDot r2 with
        | none =>
          simp only [h3] at h
          exact Bool.noConfusion h
        | some r3 =>
          simp only [h3] at h
          obtain ⟨a, ha, hla⟩ := chompOctetDot_sound h1
          obtain ⟨b, hb, hlb⟩ := chompOctetDot_sound h2
          obtain ⟨c, hc, hlc⟩ := chompOctetDot_sound h3
          obtain ⟨d, t, hd, ht, hlast⟩ := (matchLastOctet_iff r3).mp h
          exact ⟨a, b, c, d, t, ha, hb, hc, hd, ht, by rw [hla, hlb, hlc, hlast]⟩
  · rintro ⟨a, b, c, d, t, ha, hb, hc, hd, ht, rfl⟩
    simp only [matchQuadCore, chompOctetDot_complete a _ ha, chompOctetDot_complete b _ hb,
      chompOctetDot_complete c _ hc]
    exact (matchLastOctet_iff _).mpr ⟨d, t, hd, ht, rfl⟩

theorem reMatchAnchored_iff (l : List Char) :
    reMatchAnchored l = true ↔
      LooseQuad l ∨ ∃ l2, l = l2 ++ ['\n'] ∧ LooseQuad l2 := by
  rw [reMatchAnchored, Bool.or_eq_true]
  constructor
  · rintro (h | h)
    · exact Or.inl ((matchQuadCore_iff l).mp h)
    · right
      cases hrev : l.reverse with
      | nil =>
        simp only [hrev] at h
        exact Bool.noConfusion h
      | cons c r =>
        simp only [hrev, Bool.and_eq_true] at h
        obtain ⟨hc, hq⟩ := h
        refine ⟨r.reverse, ?_, (matchQuadCore_iff _).mp hq⟩
        have hl : l = (c :: r).reverse := by rw [← hrev, List.reverse_reverse]
        rw [hl, List.reverse_cons, beq_iff_eq.mp hc]
  · rintro (h | ⟨l2, rfl, h⟩)
    · exact Or.inl ((matchQuadCore_iff l).mpr h)
    · right
      have hrev : (l2 ++ ['\n']).reverse = '\n' :: l2.reverse := by
        rw [List.reverse_append]
        rfl
      simp only [hrev, List.reverse_reverse, Bool.and_eq_true]
      exact ⟨rfl, (matchQuadCore_iff l2).mpr h⟩

theorem startswith_iff (pre v : String) :
    startswith pre v = true ↔ ∃ r, v.data = pre.data ++ r := by
  rw [startswith, List.isPrefixOf_iff_prefix]
  constructor
  · rintro ⟨t, ht⟩
    exact ⟨t, ht.symm⟩
  · rintro ⟨t, ht⟩
    exact ⟨t, ht.symm⟩

/-- C5 counterexample: the address validator accepts `999.999.999.999`
(octets out of range) and the Arabic-Indic dotted quad `١.١.١.١` (Python
`\d` matches any Unicode decimal digit), neither of which is an IPv4
literal, so acceptance is not equivalent to the syntax the specification
describes. -/
theorem address_validator_accepts_out_of_range_octets :
    validAddress "999.999.999.999" = true ∧
      specValidAddress "999.999.999.999" = false ∧
      validAddress "١.١.١.١" = true ∧
      specValidAddress "١.١.١.١" = false :=
  ⟨by decide, by decide, by decide, by decide⟩

/-- C5 (amended): the address validator accepts a string exactly when it
begins with `http://`, `https://`, `tcp://` or `ipc://`, or its characters
(optionally after discarding one trailing newline) form four dot-separated
runs of one to three decimal digits — any Unicode decimal digits, as `\d`
matches — followed by an optional colon-and-digits port suffix; octet
values are not range-checked.  Every rejected address makes model
construction, hence register and update, fail with the address validation
error. -/
theorem validAddress_characterization (v : String) :
    (validAddress v = true ↔
      ((∃ r, v.data = "http://".data ++ r) ∨ (∃ r, v.data = "https://".data ++ r) ∨
        (∃ r, v.data = "tcp://".data ++ r) ∨ (∃ r, v.data = "ipc://".data ++ r) ∨
        LooseQuad v.data ∨ ∃ l, v.data = l ++ ['\n'] ∧ LooseQuad l)) ∧
    (validAddress v = false → ∀ idv credv g,
      mkPlatform idv v credv g =
        Except.error (ApiError.validation
          "Address must be a valid URL, IP address, or protocol URI")) := by
  constructor
  · simp only [validAddress, Bool.or_eq_true, startswith_iff, reMatchAnchored_iff]
    tauto
  · intro hf idv credv g
    simp [mkPlatform, hf]

theorem validAddress_characterization_witness :
    mkPlatform "x" "example.com" "0123456789abcdef" none =
      Except.error (ApiError.validation
        "Address must be a valid URL, IP address, or protocol URI") :=
  (validAddress_characterization "example.com").2 (by decide) "x" "0123456789abcdef" none

end PlatformLookup
